import Mathlib

/-!
Verification development for the turfgame Prometheus exporter
(`turfgame_exporter.go`).  The Go program is shallowly embedded: the
`User`/`Region` JSON records become Lean structures, the Prometheus
instruments become explicit finite maps inside a `Metrics` state record,
and each iteration of the `fetchData` polling loop and of the
`backgroundJob` publisher loop becomes a pure state-transition function.
External effects of one cycle (transport outcome, HTTP status code,
body-read error, JSON-decode outcome) are inputs to the transition.
-/

namespace Turfgame

/-- Embeds the Go struct `Region` (fields `Name`, `Id`). -/
structure Region where
  name : String
  id : Int
  deriving DecidableEq, Repr

/-- Embeds the Go struct `User` (one decoded player record). -/
structure User where
  country : String
  medals : List Int
  zones : List Int
  pointsPerHour : Int
  points : Int
  blocktime : Int
  taken : Int
  name : String
  totalPoints : Int
  rank : Int
  id : Int
  place : Int
  uniqueZonesTaken : Int
  region : Region
  deriving DecidableEq, Repr

/-- State of all Prometheus instruments declared in the source: the
`turfgame_api_requests_total` counter (label `code`), the ten per-user
gauges, the two-label `turfgame_user_region` gauge, and the
`http_request_duration_seconds` histogram modelled by its per-label
observation count. Gauges start unset (`none`). -/
structure Metrics where
  requestsTotal : String → Nat
  roundPoints : String → Option Int
  zonesOwned : String → Option Int
  pointsPerHour : String → Option Int
  blocktime : String → Option Int
  takenZones : String → Option Int
  totalPoints : String → Option Int
  userRank : String → Option Int
  place : String → Option Int
  uniqueZones : String → Option Int
  medalsTaken : String → Option Int
  region : String → String → Option Int
  requestDurationCount : String → Nat

/-- The fresh instrument state at process start. -/
def initMetrics : Metrics where
  requestsTotal := fun _ => 0
  roundPoints := fun _ => none
  zonesOwned := fun _ => none
  pointsPerHour := fun _ => none
  blocktime := fun _ => none
  takenZones := fun _ => none
  totalPoints := fun _ => none
  userRank := fun _ => none
  place := fun _ => none
  uniqueZones := fun _ => none
  medalsTaken := fun _ => none
  region := fun _ _ => none
  requestDurationCount := fun _ => 0

/-- `gauge.WithLabelValues(k).Set(v)`: overwrite the value at label `k`. -/
def setG (g : String → Option Int) (k : String) (v : Int) : String → Option Int :=
  fun q => if q = k then some v else g q

/-- Two-label gauge `Set`, for `turfgame_user_region`. -/
def setG2 (g : String → String → Option Int) (k1 k2 : String) (v : Int) :
    String → String → Option Int :=
  fun q1 q2 => if q1 = k1 ∧ q2 = k2 then some v else g q1 q2

/-- `counter.WithLabelValues(k).Inc()`. -/
def incCounter (f : String → Nat) (k : String) : String → Nat :=
  fun q => if q = k then f q + 1 else f q

/-- One iteration of the inner `for _, user := range data` loop of
`backgroundJob`: the eleven `Set` calls, in source order. -/
def publishUser (m : Metrics) (u : User) : Metrics :=
  { m with
    roundPoints := setG m.roundPoints u.name u.points
    zonesOwned := setG m.zonesOwned u.name (u.zones.length : Int)
    pointsPerHour := setG m.pointsPerHour u.name u.pointsPerHour
    blocktime := setG m.blocktime u.name u.blocktime
    takenZones := setG m.takenZones u.name u.taken
    totalPoints := setG m.totalPoints u.name u.totalPoints
    userRank := setG m.userRank u.name u.rank
    place := setG m.place u.name u.place
    uniqueZones := setG m.uniqueZones u.name u.uniqueZonesTaken
    medalsTaken := setG m.medalsTaken u.name (u.medals.length : Int)
    region := setG2 m.region u.name u.region.name 1 }

/-- The Publisher's handling of one batch received from the channel:
fold `publishUser` over the decoded list. -/
def publish (m : Metrics) (data : List User) : Metrics :=
  data.foldl publishUser m

/-- Outcome of the `json.Unmarshal` call on a response body, together
with its effect on the target slice, following Go's documented
semantics: on success the target is replaced by the decoded batch; on a
syntax error (invalid JSON) `Unmarshal` validates the whole input first
and leaves the target untouched; on an `UnmarshalTypeError` inside
valid JSON it returns an error but "completes the unmarshaling as best
it can", overwriting the target with the partially-decoded
(`salvaged`) value. -/
inductive DecodeOutcome where
  | ok (batch : List User)
  | syntaxErr
  | typeErr (salvaged : List User)
  deriving DecidableEq, Repr

/-- The value of the unmarshal target after `json.Unmarshal`, given its
previous value. -/
def applyDecode (td : List User) : DecodeOutcome → List User
  | DecodeOutcome.ok batch => batch
  | DecodeOutcome.syntaxErr => td
  | DecodeOutcome.typeErr salvaged => salvaged

/-- Whether `json.Unmarshal` returned a non-nil error. -/
def decodeFailed : DecodeOutcome → Bool
  | DecodeOutcome.ok _ => false
  | DecodeOutcome.syntaxErr => true
  | DecodeOutcome.typeErr _ => true

/-- External outcome of one HTTP POST in `fetchData`: either the
`client.Post` call returns an error (transport failure / timeout), or a
response arrives carrying a status code, whether `io.ReadAll` failed,
and the `json.Unmarshal` outcome on the body. -/
inductive HttpOutcome where
  | transportError
  | response (statusCode : Nat) (readErr : Bool) (decoded : DecodeOutcome)
  deriving DecidableEq, Repr

/-- Result of one iteration of the `for` loop in `fetchData`: the new
instrument state, the new value of the loop-carried `turfData` slice,
and the batch pushed on the channel this cycle (if any). -/
structure CycleResult where
  metrics : Metrics
  turfData : List User
  sent : Option (List User)

/-- One iteration of the `for` loop in `fetchData`, faithful to source
order: observe the request duration in the histogram, then branch on the
transport error; on error increment the counter at label `error` and
send nothing; on a response increment the counter at the status code
rendered by `strconv.Itoa`, read the body (a read error is only
logged), unmarshal into the loop-carried `turfData` (a decode error is
only logged; its effect on `turfData` is `applyDecode`), and
unconditionally send `turfData` on the channel. -/
def fetchCycle (endpoint : String) (m : Metrics) (td : List User)
    (o : HttpOutcome) : CycleResult :=
  let m1 : Metrics :=
    { m with requestDurationCount := incCounter m.requestDurationCount endpoint }
  match o with
  | HttpOutcome.transportError =>
      { metrics :=
          { m1 with requestsTotal := incCounter m1.requestsTotal ("error") }
        turfData := td
        sent := none }
  | HttpOutcome.response code _ decoded =>
      let m2 : Metrics :=
        { m1 with requestsTotal := incCounter m1.requestsTotal (Nat.repr code) }
      let td2 := applyDecode td decoded
      { metrics := m2, turfData := td2, sent := some td2 }

/-- One full poll cycle of the composed system: the Poller iteration
followed by the Publisher consuming the batch, if one was sent. -/
def pollCycle (endpoint : String) (m : Metrics) (td : List User)
    (o : HttpOutcome) : Metrics × List User :=
  let r := fetchCycle endpoint m td o
  match r.sent with
  | none => (r.metrics, r.turfData)
  | some d => (publish r.metrics d, r.turfData)

/-- The last record in a batch carrying a given player name: the record
whose `Set` calls win for that name's single-label gauges. -/
def lastNamed (n : String) : List User → Option User
  | [] => none
  | u :: t =>
    match lastNamed n t with
    | some v => some v
    | none => if u.name = n then some u else none

/-- Value of a single-label gauge after a batch, given the winning
record (if any) and the prior value. -/
def gaugeAfter (f : User → Int) (base : Option Int) : Option User → Option Int
  | some u => some (f u)
  | none => base


/-- Lower-case hexadecimal digit, as emitted by Go's JSON encoder in
`\u00XX` escapes. -/
def hexDigit (n : Nat) : Char :=
  if n < 10 then Char.ofNat (48 + n) else Char.ofNat (87 + n)

/-- Escaping of one character by Go's `encoding/json` string encoder
(HTML escaping enabled, as `json.Marshal` uses): quote, backslash,
newline, carriage return and tab get two-character escapes; the HTML
characters and remaining control characters get `\u00XX`; U+2028 and
U+2029 get their six-character escapes; everything else passes through. -/
def escChar (c : Char) : String :=
  if c.toNat = 34 then "\\\""
  else if c.toNat = 92 then "\\\\"
  else if c.toNat = 10 then "\\n"
  else if c.toNat = 13 then "\\r"
  else if c.toNat = 9 then "\\t"
  else if c.toNat = 60 then "\\u003c"
  else if c.toNat = 62 then "\\u003e"
  else if c.toNat = 38 then "\\u0026"
  else if c.toNat < 32 then
    "\\u00" ++ String.mk [hexDigit (c.toNat / 16), hexDigit (c.toNat % 16)]
  else if c.toNat = 8232 then "\\u2028"
  else if c.toNat = 8233 then "\\u2029"
  else String.mk [c]

/-- Go JSON encoding of a string value, quotes included. -/
def encodeString (s : String) : String :=
  "\"" ++ String.join (s.data.map escChar) ++ "\""

/-- The `[]map[string]string` slice built by `backgroundJob` before the
loop: one single-entry map per configured user name, in order. -/
def buildUsers (names : List String) : List (List (String × String)) :=
  names.map (fun u => [(("name"), u)])

def marshalField (p : String × String) : String :=
  encodeString p.1 ++ ":" ++ encodeString p.2

/-- Go JSON encoding of one of the single-key string maps (a map with
several keys would be emitted in sorted key order; the maps built here
have exactly one key, so no sorting is involved). -/
def marshalObj (fields : List (String × String)) : String :=
  "\x7b" ++ String.intercalate (",") (fields.map marshalField) ++ "\x7d"

/-- `json.Marshal` on the users slice: a nil slice (empty roster)
marshals to `null`, otherwise to a JSON array of the objects. -/
def marshalUsersBody (objs : List (List (String × String))) : String :=
  if objs.isEmpty then ("null")
  else "[" ++ String.intercalate (",") (objs.map marshalObj) ++ "]"

/-- Trace of a finite prefix of the `fetchData` loop: the request body
used on each cycle, the batches pushed on the channel in order, and the
final instrument / `turfData` state. -/
structure LoopResult where
  bodies : List String
  sends : List (List User)
  metrics : Metrics
  turfData : List User

/-- The `for` loop of `fetchData`, run over a finite list of cycle
outcomes. The request body is a parameter: the source computes it once,
before the loop, and reuses the same bytes on every POST. -/
def fetchLoop (endpoint body : String) (m : Metrics) (td : List User) :
    List HttpOutcome → LoopResult
  | [] => { bodies := [], sends := [], metrics := m, turfData := td }
  | o :: rest =>
    let r := fetchCycle endpoint m td o
    let k := fetchLoop endpoint body r.metrics r.turfData rest
    { bodies := body :: k.bodies
      sends := match r.sent with
        | none => k.sends
        | some d => d :: k.sends
      metrics := k.metrics
      turfData := k.turfData }

/-- The whole of `fetchData` as called by `backgroundJob`: marshal the
users slice once (`json_body`), start with a nil `turfData`, loop. -/
def fetchData (endpoint : String) (names : List String) (m : Metrics)
    (outs : List HttpOutcome) : LoopResult :=
  fetchLoop endpoint (marshalUsersBody (buildUsers names)) m [] outs

/-- The request-body shape stated by the spec: a JSON array of objects
of the shape `\x7b"name": <player name>\x7d`, one per configured
player, in configured order. Stated from the spec's words, for
comparison with `fetchData`'s body. -/
def specRequestBody (names : List String) : String :=
  "[" ++ String.intercalate (",")
    (names.map (fun n =>
      "\x7b" ++ encodeString ("name") ++ ":" ++ encodeString n ++ "\x7d"))
  ++ "]"

/-- Thread identifiers for the startup interleaving: the `main`
goroutine and the `backgroundJob` goroutine it spawns. -/
inductive Tid where
  | tmain
  | tbg
  deriving DecidableEq, Repr

/-- Observable startup state of the process: program counters of the
two goroutines, whether `http.ListenAndServe` has been reached, whether
`backgroundJob`'s `log.Fatal` fired (terminating the process with a
non-zero status), and whether the publisher `for` loop was entered. -/
structure Sys where
  mainPC : Nat
  bgPC : Nat
  serverStarted : Bool
  bgFatal : Bool
  bgInLoop : Bool
  exited : Bool
  deriving DecidableEq, Repr

def initSys : Sys :=
  { mainPC := 0, bgPC := 0, serverStarted := false, bgFatal := false
    bgInLoop := false, exited := false }

/-- One step of `main` after `go backgroundJob(c)`: first the
`prometheus.MustRegister` calls, then `http.ListenAndServe` (which
starts the HTTP metrics server and blocks). -/
def mainStep (s : Sys) : Sys :=
  if s.mainPC = 0 then { s with mainPC := 1 }
  else if s.mainPC = 1 then { s with mainPC := 2, serverStarted := true }
  else s

/-- One step of `backgroundJob`: the empty-roster check first —
`log.Fatal` on an empty roster, otherwise build the users slice, spawn
`fetchData` and enter the publisher `for` loop. -/
def bgStep (roster : List String) (s : Sys) : Sys :=
  if s.bgPC = 0 then
    if roster.isEmpty then { s with bgFatal := true, exited := true }
    else { s with bgPC := 1, bgInLoop := true }
  else s

/-- Interleaving semantics: a scheduled thread takes its next step,
unless the process has already exited. -/
def sysStep (roster : List String) (s : Sys) (t : Tid) : Sys :=
  if s.exited then s
  else
    match t with
    | Tid.tmain => mainStep s
    | Tid.tbg => bgStep roster s

/-- Run startup from the initial state under a given schedule. -/
def runSys (roster : List String) (sched : List Tid) : Sys :=
  sched.foldl (sysStep roster) initSys

/-- A concrete decoded record, used to instantiate the theorems below
on closed inputs. -/
def sampleUser : User :=
  { country := ("se"), medals := [1, 2], zones := [10, 20, 30]
    pointsPerHour := 25, points := 1200, blocktime := 4, taken := 7
    name := ("alice"), totalPoints := 9000, rank := 12, id := 77
    place := 3, uniqueZonesTaken := 40
    region := { name := ("region-one"), id := 141 } }

/-- A second concrete record with a different name and region. -/
def sampleUser2 : User :=
  { country := ("se"), medals := [], zones := []
    pointsPerHour := 0, points := 300, blocktime := 9, taken := 2
    name := ("bob"), totalPoints := 500, rank := 4, id := 78
    place := 9, uniqueZonesTaken := 5
    region := { name := ("region-two"), id := 142 } }

/-- The first sample record after its player moved to another region. -/
def sampleUserMoved : User :=
  { sampleUser with region := { name := ("region-two"), id := 142 } }

/-- The `backgroundJob` goroutine is still at (or stuck before) its
empty-roster check: it has not entered the publisher loop, and if the
process has exited it was through the roster `log.Fatal`. -/
def bgDormant (s : Sys) : Prop :=
  s.bgInLoop = false ∧ s.bgPC = 0 ∧ (s.exited = true → s.bgFatal = true)

theorem publish_cons (m : Metrics) (u : User) (t : List User) :
    publish m (u :: t) = publish (publishUser m u) t := rfl

theorem setG_char (g : String → Option Int) (k : String) (v : Int) (q : String) :
    setG g k v q = if q = k then some v else g q := rfl

/-- Generic characterization of any single-label gauge after `publish`:
it holds the field of the last record carrying the queried name, or the
prior value when no record carries it. -/
theorem publish_gauge_char (f : User → Int) (proj : Metrics → (String → Option Int))
    (hp : ∀ m u, proj (publishUser m u) = setG (proj m) u.name (f u))
    (d : List User) (m : Metrics) (n : String) :
    proj (publish m d) n = gaugeAfter f (proj m n) (lastNamed n d) := by
  induction d generalizing m with
  | nil => rfl
  | cons u t ih =>
    rw [publish_cons, ih, hp, setG_char]
    cases htail : lastNamed n t with
    | some v => simp [lastNamed, htail, gaugeAfter]
    | none =>
      simp only [lastNamed, htail, gaugeAfter]
      by_cases h : u.name = n
      · simp [h, gaugeAfter]
      · have h' : ¬ n = u.name := fun hq => h hq.symm
        simp [h, h', gaugeAfter]

theorem publish_roundPoints (d : List User) (m : Metrics) (n : String) :
    (publish m d).roundPoints n
      = gaugeAfter (fun u => u.points) (m.roundPoints n) (lastNamed n d) :=
  publish_gauge_char _ Metrics.roundPoints (fun _ _ => rfl) d m n

theorem publish_zonesOwned (d : List User) (m : Metrics) (n : String) :
    (publish m d).zonesOwned n
      = gaugeAfter (fun u => (u.zones.length : Int)) (m.zonesOwned n) (lastNamed n d) :=
  publish_gauge_char _ Metrics.zonesOwned (fun _ _ => rfl) d m n

theorem publish_pointsPerHour (d : List User) (m : Metrics) (n : String) :
    (publish m d).pointsPerHour n
      = gaugeAfter (fun u => u.pointsPerHour) (m.pointsPerHour n) (lastNamed n d) :=
  publish_gauge_char _ Metrics.pointsPerHour (fun _ _ => rfl) d m n

theorem publish_blocktime (d : List User) (m : Metrics) (n : String) :
    (publish m d).blocktime n
      = gaugeAfter (fun u => u.blocktime) (m.blocktime n) (lastNamed n d) :=
  publish_gauge_char _ Metrics.blocktime (fun _ _ => rfl) d m n

theorem publish_takenZones (d : List User) (m : Metrics) (n : String) :
    (publish m d).takenZones n
      = gaugeAfter (fun u => u.taken) (m.takenZones n) (lastNamed n d) :=
  publish_gauge_char _ Metrics.takenZones (fun _ _ => rfl) d m n

theorem publish_totalPoints (d : List User) (m : Metrics) (n : String) :
    (publish m d).totalPoints n
      = gaugeAfter (fun u => u.totalPoints) (m.totalPoints n) (lastNamed n d) :=
  publish_gauge_char _ Metrics.totalPoints (fun _ _ => rfl) d m n

theorem publish_userRank (d : List User) (m : Metrics) (n : String) :
    (publish m d).userRank n
      = gaugeAfter (fun u => u.rank) (m.userRank n) (lastNamed n d) :=
  publish_gauge_char _ Metrics.userRank (fun _ _ => rfl) d m n

theorem publish_place (d : List User) (m : Metrics) (n : String) :
    (publish m d).place n
      = gaugeAfter (fun u => u.place) (m.place n) (lastNamed n d) :=
  publish_gauge_char _ Metrics.place (fun _ _ => rfl) d m n

theorem publish_uniqueZones (d : List User) (m : Metrics) (n : String) :
    (publish m d).uniqueZones n
      = gaugeAfter (fun u => u.uniqueZonesTaken) (m.uniqueZones n) (lastNamed n d) :=
  publish_gauge_char _ Metrics.uniqueZones (fun _ _ => rfl) d m n

theorem publish_medalsTaken (d : List User) (m : Metrics) (n : String) :
    (publish m d).medalsTaken n
      = gaugeAfter (fun u => (u.medals.length : Int)) (m.medalsTaken n) (lastNamed n d) :=
  publish_gauge_char _ Metrics.medalsTaken (fun _ _ => rfl) d m n

/-- The region gauge after a batch: `1` at every (name, region-name)
pair occurring in the batch, the prior value elsewhere. -/
theorem publish_region (d : List User) (m : Metrics) (n rn : String) :
    (publish m d).region n rn
      = if ∃ u ∈ d, u.name = n ∧ u.region.name = rn then some 1
        else m.region n rn := by
  induction d generalizing m with
  | nil => simp [publish]
  | cons u t ih =>
    rw [publish_cons, ih]
    by_cases htail : ∃ w ∈ t, w.name = n ∧ w.region.name = rn
    · simp [htail]
    · by_cases hu : u.name = n ∧ u.region.name = rn
      · have : ∃ w ∈ u :: t, w.name = n ∧ w.region.name = rn :=
          ⟨u, List.mem_cons_self u t, hu⟩
        simp only [htail, if_false, this, if_true]
        show setG2 m.region u.name u.region.name 1 n rn = some 1
        simp [setG2, hu.1, hu.2]
      · have : ¬ ∃ w ∈ u :: t, w.name = n ∧ w.region.name = rn := by
          intro ⟨w, hw, hwp⟩
          rcases List.mem_cons.mp hw with h | h
          · exact hu (h ▸ hwp)
          · exact htail ⟨w, h, hwp⟩
        simp only [htail, if_false, this, if_false]
        show setG2 m.region u.name u.region.name 1 n rn = m.region n rn
        have : ¬ (n = u.name ∧ rn = u.region.name) := by
          intro ⟨h1, h2⟩; exact hu ⟨h1.symm, h2.symm⟩
        simp [setG2, this]

theorem publish_requestsTotal (d : List User) (m : Metrics) :
    (publish m d).requestsTotal = m.requestsTotal := by
  induction d generalizing m with
  | nil => rfl
  | cons u t ih => rw [publish_cons, ih]; rfl

theorem publish_requestDurationCount (d : List User) (m : Metrics) :
    (publish m d).requestDurationCount = m.requestDurationCount := by
  induction d generalizing m with
  | nil => rfl
  | cons u t ih => rw [publish_cons, ih]; rfl

theorem lastNamed_eq_none (d : List User) (n : String)
    (h : n ∉ d.map User.name) : lastNamed n d = none := by
  induction d with
  | nil => rfl
  | cons u t ih =>
    simp only [List.map_cons, List.mem_cons] at h
    push_neg at h
    have hne : ¬ u.name = n := fun hq => h.1 hq.symm
    simp [lastNamed, ih h.2, hne]

/-- In a batch whose player names are pairwise distinct, each record is
the winning record for its own name. -/
theorem lastNamed_of_nodup (d : List User) (h : (d.map User.name).Nodup)
    (u : User) (hu : u ∈ d) : lastNamed u.name d = some u := by
  induction d with
  | nil => cases hu
  | cons v t ih =>
    simp only [List.map_cons, List.nodup_cons] at h
    rcases List.mem_cons.mp hu with rfl | hmem
    · have : lastNamed u.name t = none :=
        lastNamed_eq_none t u.name h.1
      simp [lastNamed, this]
    · simp [lastNamed, ih h.2 hmem]

theorem fetchLoop_bodies (e b : String) (outs : List HttpOutcome)
    (m : Metrics) (td : List User) :
    (fetchLoop e b m td outs).bodies = outs.map (fun _ => b) := by
  induction outs generalizing m td with
  | nil => rfl
  | cons o rest ih => simp [fetchLoop, ih]

theorem fetchCycle_durationCount (e : String) (m : Metrics) (td : List User)
    (o : HttpOutcome) (q : String) :
    (fetchCycle e m td o).metrics.requestDurationCount q
      = if q = e then m.requestDurationCount q + 1
        else m.requestDurationCount q := by
  cases o <;> rfl

theorem fetchLoop_durationCount (e b : String) (outs : List HttpOutcome)
    (m : Metrics) (td : List User) (q : String) :
    (fetchLoop e b m td outs).metrics.requestDurationCount q
      = if q = e then m.requestDurationCount q + outs.length
        else m.requestDurationCount q := by
  induction outs generalizing m td with
  | nil => simp [fetchLoop]
  | cons o rest ih =>
    simp only [fetchLoop]
    rw [ih, fetchCycle_durationCount]
    by_cases hq : q = e
    · simp only [hq, if_true, List.length_cons]
      omega
    · simp [hq]

theorem marshalObj_single (k v : String) :
    marshalObj [(k, v)]
      = "\x7b" ++ (encodeString k ++ ":" ++ encodeString v) ++ "\x7d" := rfl

/-- The body `fetchData` marshals once before its loop matches the
spec's description of the request body, for a non-empty roster. -/
theorem marshal_eq_spec (names : List String) (h : names ≠ []) :
    marshalUsersBody (buildUsers names) = specRequestBody names := by
  have hne : (buildUsers names).isEmpty = false := by
    cases names with
    | nil => exact absurd rfl h
    | cons a t => rfl
  unfold marshalUsersBody
  rw [hne]
  simp only [Bool.false_eq_true, if_false, specRequestBody, buildUsers,
    List.map_map]
  have hmap : List.map (marshalObj ∘ fun u => [(("name"), u)]) names
      = List.map (fun n =>
          "\x7b" ++ encodeString ("name") ++ ":" ++ encodeString n ++ "\x7d")
        names :=
    List.map_congr_left (fun n _ => by
      simp [Function.comp, marshalObj_single, String.append_assoc])
  rw [hmap]

theorem sysStep_empty_dormant (s : Sys) (t : Tid) (h : bgDormant s) :
    bgDormant (sysStep [] s t) := by
  obtain ⟨h1, h2, h3⟩ := h
  unfold sysStep
  cases hx : s.exited with
  | true => simpa [hx] using ⟨h1, h2, h3⟩
  | false =>
    simp only [hx, Bool.false_eq_true, if_false]
    cases t with
    | tmain =>
      unfold mainStep
      split_ifs <;> exact ⟨h1, h2, h3⟩
    | tbg =>
      unfold bgStep
      rw [if_pos h2]
      simp [bgDormant, h1, h2]

theorem sysStep_exited (r : List String) (s : Sys) (t : Tid)
    (h : s.exited = true) : sysStep r s t = s := by
  unfold sysStep
  rw [if_pos h]

theorem foldl_sysStep_exited (r : List String) (sched : List Tid) (s : Sys)
    (h : s.exited = true) : sched.foldl (sysStep r) s = s := by
  induction sched with
  | nil => rfl
  | cons t rest ih => rw [List.foldl_cons, sysStep_exited r s t h, ih]

theorem sysStep_empty_tbg_exits (s : Sys) (h : bgDormant s) :
    (sysStep [] s Tid.tbg).exited = true := by
  obtain ⟨h1, h2, h3⟩ := h
  unfold sysStep
  cases hx : s.exited with
  | true => simpa using hx
  | false =>
    simp only [hx, Bool.false_eq_true, if_false]
    unfold bgStep
    rw [if_pos h2]
    simp

theorem runSys_empty_aux (sched : List Tid) (s : Sys) (h : bgDormant s) :
    bgDormant (sched.foldl (sysStep []) s) ∧
      (Tid.tbg ∈ sched → (sched.foldl (sysStep []) s).exited = true) := by
  induction sched generalizing s with
  | nil => exact ⟨h, fun hin => absurd hin (List.not_mem_nil _)⟩
  | cons t rest ih =>
    have hs' := sysStep_empty_dormant s t h
    obtain ⟨hd, hmem⟩ := ih (sysStep [] s t) hs'
    rw [List.foldl_cons]
    refine ⟨hd, fun hin => ?_⟩
    rcases List.mem_cons.mp hin with heq | hin'
    · have hx : (sysStep [] s t).exited = true := by
        rw [← heq] at *
        exact sysStep_empty_tbg_exits s h
      rw [foldl_sysStep_exited [] rest _ hx]
      exact hx
    · exact hmem hin'

/-- Claim C1, counterexample. The claim states that when the body read
fails or the body fails to decode, the Poller does not send any batch on
the handoff channel that cycle. The code refutes this: `ch <- turfData`
in `fetchData` runs unconditionally in the response branch, after both
error checks, so a batch is sent even when the body read errors and the
decode fails. Here the previous `turfData` is `[sampleUser]`, the
cycle's body read errors and the decode fails with a syntax error, yet
the cycle sends `some [sampleUser]`. -/
theorem C1_counterexample :
    (fetchCycle ("e") initMetrics [sampleUser]
      (HttpOutcome.response 200 true DecodeOutcome.syntaxErr)).sent
      = some [sampleUser] := rfl

/-- Claim C1, amended: for every poll cycle in which the response body
cannot be read or the body fails to decode, the Poller logs the error
and still sends a batch on the handoff channel that cycle — the
loop-carried `turfData` after the failed `json.Unmarshal`. On a JSON
syntax error that list is the previously-decoded list, unchanged; on a
type-mismatch error inside valid JSON it is the partially-overwritten
(corrupted) list, so the previously-decoded data is preserved only in
the syntax-error case. -/
theorem C1_amended (e : String) (m : Metrics) (td : List User)
    (code : Nat) (rerr : Bool) (d : DecodeOutcome)
    (hfail : decodeFailed d = true) :
    (fetchCycle e m td (HttpOutcome.response code rerr d)).turfData
      = applyDecode td d ∧
    (fetchCycle e m td (HttpOutcome.response code rerr d)).sent
      = some (applyDecode td d) ∧
    (d = DecodeOutcome.syntaxErr → applyDecode td d = td) ∧
    (∀ s, d = DecodeOutcome.typeErr s → applyDecode td d = s) := by
  refine ⟨rfl, rfl, ?_, ?_⟩
  · intro hd
    subst hd
    rfl
  · intro s hd
    subst hd
    rfl

/-- Witness for the amended C1: a cycle whose decode fails with a type
error sends the partially-decoded list `[sampleUser2]`, not the
previous `[sampleUser]`. -/
theorem C1_witness :
    decodeFailed (DecodeOutcome.typeErr [sampleUser2]) = true ∧
    ((fetchCycle ("e") initMetrics [sampleUser]
        (HttpOutcome.response 200 false
          (DecodeOutcome.typeErr [sampleUser2]))).turfData
      = applyDecode [sampleUser] (DecodeOutcome.typeErr [sampleUser2]) ∧
    (fetchCycle ("e") initMetrics [sampleUser]
        (HttpOutcome.response 200 false
          (DecodeOutcome.typeErr [sampleUser2]))).sent
      = some (applyDecode [sampleUser] (DecodeOutcome.typeErr [sampleUser2])) ∧
    (DecodeOutcome.typeErr [sampleUser2] = DecodeOutcome.syntaxErr →
      applyDecode [sampleUser] (DecodeOutcome.typeErr [sampleUser2])
        = [sampleUser]) ∧
    (∀ s, DecodeOutcome.typeErr [sampleUser2] = DecodeOutcome.typeErr s →
      applyDecode [sampleUser] (DecodeOutcome.typeErr [sampleUser2]) = s)) :=
  ⟨by decide,
    C1_amended ("e") initMetrics [sampleUser] 200 false
      (DecodeOutcome.typeErr [sampleUser2]) (by decide)⟩

/-- Claim C2: for every decoded batch (with pairwise-distinct player
names, one record per player), after the Publisher processes it each
per-player gauge equals the corresponding field of that player's
record: round points, zones-owned (length of `zones`), points-per-hour,
blocktime, taken-zone count, total points, rank, place,
unique-zones-taken, and medals-taken (length of `medals`). -/
theorem C2_gauges_match_record (m : Metrics) (data : List User)
    (h : (data.map User.name).Nodup) (u : User) (hu : u ∈ data) :
    (publish m data).roundPoints u.name = some u.points ∧
    (publish m data).zonesOwned u.name = some (u.zones.length : Int) ∧
    (publish m data).pointsPerHour u.name = some u.pointsPerHour ∧
    (publish m data).blocktime u.name = some u.blocktime ∧
    (publish m data).takenZones u.name = some u.taken ∧
    (publish m data).totalPoints u.name = some u.totalPoints ∧
    (publish m data).userRank u.name = some u.rank ∧
    (publish m data).place u.name = some u.place ∧
    (publish m data).uniqueZones u.name = some u.uniqueZonesTaken ∧
    (publish m data).medalsTaken u.name = some (u.medals.length : Int) := by
  have hl := lastNamed_of_nodup data h u hu
  refine ⟨?_, ?_, ?_, ?_, ?_, ?_, ?_, ?_, ?_, ?_⟩ <;>
    simp [publish_roundPoints, publish_zonesOwned, publish_pointsPerHour,
      publish_blocktime, publish_takenZones, publish_totalPoints,
      publish_userRank, publish_place, publish_uniqueZones,
      publish_medalsTaken, hl, gaugeAfter]

/-- Witness for C2 at a concrete two-record batch. -/
theorem C2_witness :
    ((([sampleUser, sampleUser2]).map User.name).Nodup ∧
      sampleUser ∈ [sampleUser, sampleUser2]) ∧
    ((publish initMetrics [sampleUser, sampleUser2]).roundPoints
        sampleUser.name = some sampleUser.points ∧
      (publish initMetrics [sampleUser, sampleUser2]).zonesOwned
        sampleUser.name = some (sampleUser.zones.length : Int) ∧
      (publish initMetrics [sampleUser, sampleUser2]).pointsPerHour
        sampleUser.name = some sampleUser.pointsPerHour ∧
      (publish initMetrics [sampleUser, sampleUser2]).blocktime
        sampleUser.name = some sampleUser.blocktime ∧
      (publish initMetrics [sampleUser, sampleUser2]).takenZones
        sampleUser.name = some sampleUser.taken ∧
      (publish initMetrics [sampleUser, sampleUser2]).totalPoints
        sampleUser.name = some sampleUser.totalPoints ∧
      (publish initMetrics [sampleUser, sampleUser2]).userRank
        sampleUser.name = some sampleUser.rank ∧
      (publish initMetrics [sampleUser, sampleUser2]).place
        sampleUser.name = some sampleUser.place ∧
      (publish initMetrics [sampleUser, sampleUser2]).uniqueZones
        sampleUser.name = some sampleUser.uniqueZonesTaken ∧
      (publish initMetrics [sampleUser, sampleUser2]).medalsTaken
        sampleUser.name = some (sampleUser.medals.length : Int)) :=
  ⟨⟨by decide, by decide⟩,
    C2_gauges_match_record initMetrics [sampleUser, sampleUser2]
      (by decide) sampleUser (by decide)⟩

/-- Claim C3: on a transport error the request-outcome counter's
label `error` value increments by exactly 1 (every other label is
unchanged), no batch is sent to the Publisher that cycle, and every
per-player gauge keeps its pre-failure value. -/
theorem C3_transport_error (e : String) (m : Metrics) (td : List User)
    (s n rn : String) :
    (fetchCycle e m td HttpOutcome.transportError).sent = none ∧
    (fetchCycle e m td HttpOutcome.transportError).metrics.requestsTotal s
      = (if s = ("error") then m.requestsTotal s + 1
         else m.requestsTotal s) ∧
    (pollCycle e m td HttpOutcome.transportError).1.roundPoints n
      = m.roundPoints n ∧
    (pollCycle e m td HttpOutcome.transportError).1.zonesOwned n
      = m.zonesOwned n ∧
    (pollCycle e m td HttpOutcome.transportError).1.pointsPerHour n
      = m.pointsPerHour n ∧
    (pollCycle e m td HttpOutcome.transportError).1.blocktime n
      = m.blocktime n ∧
    (pollCycle e m td HttpOutcome.transportError).1.takenZones n
      = m.takenZones n ∧
    (pollCycle e m td HttpOutcome.transportError).1.totalPoints n
      = m.totalPoints n ∧
    (pollCycle e m td HttpOutcome.transportError).1.userRank n
      = m.userRank n ∧
    (pollCycle e m td HttpOutcome.transportError).1.place n
      = m.place n ∧
    (pollCycle e m td HttpOutcome.transportError).1.uniqueZones n
      = m.uniqueZones n ∧
    (pollCycle e m td HttpOutcome.transportError).1.medalsTaken n
      = m.medalsTaken n ∧
    (pollCycle e m td HttpOutcome.transportError).1.region n rn
      = m.region n rn :=
  ⟨rfl, rfl, rfl, rfl, rfl, rfl, rfl, rfl, rfl, rfl, rfl, rfl, rfl⟩

/-- Claim C4: on every received response the request-outcome counter is
incremented exactly once, at the label holding the status code rendered
as a decimal string (`strconv.Itoa`), and a non-success status is not
short-circuited: for every status code the body is still decoded, the
decode result replaces `turfData`, and the batch is sent. -/
theorem C4_status_code_label (e : String) (m : Metrics) (td : List User)
    (code : Nat) (rerr : Bool) (dec : DecodeOutcome) (s : String) :
    (fetchCycle e m td
        (HttpOutcome.response code rerr dec)).metrics.requestsTotal s
      = (if s = Nat.repr code then m.requestsTotal s + 1
         else m.requestsTotal s) ∧
    (fetchCycle e m td (HttpOutcome.response code rerr dec)).turfData
      = applyDecode td dec ∧
    (fetchCycle e m td (HttpOutcome.response code rerr dec)).sent
      = some (applyDecode td dec) :=
  ⟨rfl, rfl, rfl⟩

/-- Claim C5: publishing is idempotent — processing the same batch
twice in a row leaves every gauge value (all ten per-player gauges and
the region gauge) identical to processing it once. -/
theorem C5_idempotent (m : Metrics) (data : List User) (n rn : String) :
    (publish (publish m data) data).roundPoints n
      = (publish m data).roundPoints n ∧
    (publish (publish m data) data).zonesOwned n
      = (publish m data).zonesOwned n ∧
    (publish (publish m data) data).pointsPerHour n
      = (publish m data).pointsPerHour n ∧
    (publish (publish m data) data).blocktime n
      = (publish m data).blocktime n ∧
    (publish (publish m data) data).takenZones n
      = (publish m data).takenZones n ∧
    (publish (publish m data) data).totalPoints n
      = (publish m data).totalPoints n ∧
    (publish (publish m data) data).userRank n
      = (publish m data).userRank n ∧
    (publish (publish m data) data).place n
      = (publish m data).place n ∧
    (publish (publish m data) data).uniqueZones n
      = (publish m data).uniqueZones n ∧
    (publish (publish m data) data).medalsTaken n
      = (publish m data).medalsTaken n ∧
    (publish (publish m data) data).region n rn
      = (publish m data).region n rn := by
  have hreg : (publish (publish m data) data).region n rn
      = (publish m data).region n rn := by
    by_cases hr : ∃ u ∈ data, u.name = n ∧ u.region.name = rn <;>
      simp [publish_region, hr]
  refine ⟨?_, ?_, ?_, ?_, ?_, ?_, ?_, ?_, ?_, ?_, hreg⟩ <;>
  · cases hl : lastNamed n data <;>
      simp [publish_roundPoints, publish_zonesOwned, publish_pointsPerHour,
        publish_blocktime, publish_takenZones, publish_totalPoints,
        publish_userRank, publish_place, publish_uniqueZones,
        publish_medalsTaken, hl, gaugeAfter]

/-- Claim C6: for every batch the region gauge is set to exactly 1 for
every (player name, region name) pair present in the batch, and no
value other than 1 is ever written to that instrument: if before an
operation (a Publisher batch, or a whole poll cycle with any outcome)
the gauge holds nothing but 1s, the same holds after. -/
theorem C6_region_one (m : Metrics) (d : List User) (u : User)
    (hu : u ∈ d) (e : String) (td : List User) (o : HttpOutcome)
    (hm : ∀ q qr, m.region q qr = none ∨ m.region q qr = some 1) :
    (publish m d).region u.name u.region.name = some 1 ∧
    (∀ q qr, (publish m d).region q qr = none ∨
      (publish m d).region q qr = some 1) ∧
    (∀ q qr, (pollCycle e m td o).1.region q qr = none ∨
      (pollCycle e m td o).1.region q qr = some 1) := by
  have hpub : ∀ (mm : Metrics),
      (∀ q qr, mm.region q qr = none ∨ mm.region q qr = some 1) →
      ∀ (dd : List User) (q qr : String),
        (publish mm dd).region q qr = none ∨
        (publish mm dd).region q qr = some 1 := by
    intro mm hmm dd q qr
    rw [publish_region]
    split
    · exact Or.inr rfl
    · exact hmm q qr
  refine ⟨?_, hpub m hm d, ?_⟩
  · rw [publish_region, if_pos ⟨u, hu, rfl, rfl⟩]
  · cases o with
    | transportError => exact fun q qr => hm q qr
    | response code rerr dec =>
      intro q qr
      exact hpub (fetchCycle e m td (HttpOutcome.response code rerr dec)).metrics
        (fun a b => hm a b) (applyDecode td dec) q qr

/-- Witness for C6 on a concrete batch and a concrete poll cycle. -/
theorem C6_witness :
    (sampleUser ∈ [sampleUser] ∧
      (∀ q qr, initMetrics.region q qr = none ∨
        initMetrics.region q qr = some 1)) ∧
    ((publish initMetrics [sampleUser]).region sampleUser.name
        sampleUser.region.name = some 1 ∧
      (∀ q qr, (publish initMetrics [sampleUser]).region q qr = none ∨
        (publish initMetrics [sampleUser]).region q qr = some 1) ∧
      (∀ q qr,
        (pollCycle ("e") initMetrics [] HttpOutcome.transportError).1.region
            q qr = none ∨
        (pollCycle ("e") initMetrics [] HttpOutcome.transportError).1.region
            q qr = some 1)) :=
  ⟨⟨by decide, fun q qr => Or.inl rfl⟩,
    C6_region_one initMetrics [sampleUser] sampleUser (by decide) ("e") []
      HttpOutcome.transportError (fun q qr => Or.inl rfl)⟩

/-- Claim C7: for every non-empty configured roster, the body sent on
each POST is the JSON serialization of an array of objects of the shape
`\x7b"name": <player name>\x7d`, one per configured player in
configured order; it is marshalled once before the loop and the same
body is used on every cycle. -/
theorem C7_request_body (e : String) (names : List String) (m : Metrics)
    (outs : List HttpOutcome) (h : names ≠ []) :
    (fetchData e names m outs).bodies
      = outs.map (fun _ => specRequestBody names) := by
  unfold fetchData
  rw [fetchLoop_bodies]
  simp only [marshal_eq_spec names h]

/-- Witness for C7 with a two-player roster over two cycles. -/
theorem C7_witness :
    (["alice", "bob"] : List String) ≠ [] ∧
    (fetchData ("e") ["alice", "bob"] initMetrics
        [HttpOutcome.transportError,
          HttpOutcome.response 200 false (DecodeOutcome.ok [sampleUser])]).bodies
      = ([HttpOutcome.transportError,
          HttpOutcome.response 200 false (DecodeOutcome.ok [sampleUser])]).map
          (fun _ => specRequestBody ["alice", "bob"]) :=
  ⟨by decide,
    C7_request_body ("e") ["alice", "bob"] initMetrics
      [HttpOutcome.transportError,
        HttpOutcome.response 200 false (DecodeOutcome.ok [sampleUser])] (by decide)⟩

/-- Claim C8, counterexample. The claim states that an empty configured
roster terminates the process before the polling loop begins and
without starting the HTTP metrics server. `backgroundJob` does fatal
out before its loop, but it runs as a goroutine concurrent with `main`,
and `main` registers the instruments and reaches `http.ListenAndServe`
unconditionally; under the schedule that runs `main` first (the usual
Go behavior, as a freshly spawned goroutine does not preempt its
spawner) the HTTP server is started, and only then does the fatal
empty-roster check terminate the process. -/
theorem C8_counterexample :
    (runSys [] [Tid.tmain, Tid.tmain, Tid.tbg]).serverStarted = true ∧
    (runSys [] [Tid.tmain, Tid.tmain, Tid.tbg]).bgFatal = true ∧
    (runSys [] [Tid.tmain, Tid.tmain, Tid.tbg]).exited = true := by
  decide

/-- Claim C8, amended: with an empty configured roster, whenever the
background job is scheduled at all the process terminates through its
logged fatal empty-roster check (non-zero exit), and the
polling/publisher loop is never entered; the HTTP metrics server,
running in the concurrent `main` goroutine, may however already have
started before the termination. -/
theorem C8_amended (sched : List Tid) (h : Tid.tbg ∈ sched) :
    (runSys [] sched).bgInLoop = false ∧
    (runSys [] sched).exited = true ∧
    (runSys [] sched).bgFatal = true := by
  have hinit : bgDormant initSys :=
    ⟨rfl, rfl, fun hx => Bool.noConfusion hx⟩
  obtain ⟨hd, hex⟩ := runSys_empty_aux sched initSys hinit
  have hx := hex h
  exact ⟨hd.1, hx, hd.2.2 hx⟩

/-- Witness for the amended C8, on the schedule that runs only the
background goroutine. -/
theorem C8_amended_witness :
    Tid.tbg ∈ [Tid.tbg] ∧
    ((runSys [] [Tid.tbg]).bgInLoop = false ∧
      (runSys [] [Tid.tbg]).exited = true ∧
      (runSys [] [Tid.tbg]).bgFatal = true) :=
  ⟨by decide, C8_amended [Tid.tbg] (by decide)⟩

/-- Claim C9: a previously-set (player, region) pair of the region
gauge is never removed: processing any new batch leaves it present with
its stale value 1, and the batch only adds or overwrites (with 1) the
pairs occurring in the batch, leaving every other pair unchanged. -/
theorem C9_stale_regions (m : Metrics) (d : List User) (n rn q qr : String)
    (h : m.region n rn = some 1) :
    (publish m d).region n rn = some 1 ∧
    (publish m d).region q qr
      = (if ∃ v ∈ d, v.name = q ∧ v.region.name = qr then some 1
         else m.region q qr) := by
  refine ⟨?_, publish_region d m q qr⟩
  rw [publish_region]
  split
  · rfl
  · exact h

/-- Witness for C9: alice's old (alice, region-one) pair survives a
batch in which alice reports region-two. -/
theorem C9_witness :
    (publish initMetrics [sampleUser]).region (("alice")) (("region-one"))
      = some 1 ∧
    ((publish (publish initMetrics [sampleUser])
        [sampleUserMoved]).region (("alice")) (("region-one")) = some 1 ∧
      (publish (publish initMetrics [sampleUser])
          [sampleUserMoved]).region (("alice")) (("region-two"))
        = (if ∃ v ∈ [sampleUserMoved], v.name = ("alice") ∧
              v.region.name = ("region-two") then some 1
           else (publish initMetrics [sampleUser]).region
              (("alice")) (("region-two")))) :=
  ⟨by decide,
    C9_stale_regions (publish initMetrics [sampleUser]) [sampleUserMoved]
      ("alice") ("region-one") ("alice") ("region-two") (by decide)⟩

/-- Claim C10: every iteration of the polling loop records exactly one
observation in the request-duration histogram, at the label of the
configured endpoint URL — including iterations ending in a transport
error, since the observation precedes the error branch; over a finite
run the observation count at the endpoint label grows by exactly the
number of iterations, and no other label moves. -/
theorem C10_duration_observed (e b : String) (m : Metrics)
    (td : List User) (o : HttpOutcome) (outs : List HttpOutcome)
    (q : String) :
    (fetchCycle e m td o).metrics.requestDurationCount q
      = (if q = e then m.requestDurationCount q + 1
         else m.requestDurationCount q) ∧
    (fetchLoop e b m td outs).metrics.requestDurationCount q
      = (if q = e then m.requestDurationCount q + outs.length
         else m.requestDurationCount q) :=
  ⟨fetchCycle_durationCount e m td o q,
    fetchLoop_durationCount e b outs m td q⟩

end Turfgame
